import Mathlib

/-!
# Verification of the `random` explore policy engine (namazu / earthquake)

Shallow embedding of `earthquake/explorepolicy/random/randompolicy.go`.

Modelling conventions:
* `time.Duration` is an `int64` count of nanoseconds; it is embedded as `Int`.
* `float64` configuration parameters are embedded as the exact rational value
  (`ℚ`) the stored float denotes; float arithmetic on them in the source
  (`p * 1000.0`, `float64(d) * 0.8`) is embedded as exact rational arithmetic
  followed by Go's truncating conversion where the source converts back to an
  integer type.  (For the magnitudes involved — probabilities in `[0,1]` and
  realistic durations — the rounding of the float product does not move it
  across an integer boundary, so the truncated results agree.)
* Go's `map[string]bool` used as a set of entity ids is embedded as
  `Finset String` (the source only ever stores `true`).
* Channels and the time-bounded queue handle carry no configuration state and
  are not part of the engine state; the concurrent routines are embedded as
  explicit step functions / list-processing recursions.
* A Go `(value, error)` pair is embedded as a pair of `Option`s, since the
  source can return both a value and an error.
-/

namespace RandomPolicy

/-- A Go `error` value (only its message is relevant to this development). -/
structure GoError where
  msg : String
deriving DecidableEq, Repr

/-- An opaque `signal.Action` value.  Actions are produced by events'
capability methods and by the shell-injection routine and are only passed
through the engine, so an opaque tag suffices. -/
structure Action where
  tag : String
deriving DecidableEq, Repr

/-- The capability record of a non-process-scheduling `signal.Event`:
`EntityID()`, `DefaultAction() -> (Action, error)` and
`DefaultFaultAction() -> (Action, error)` (the fault action may be `nil`,
meaning no fault variant exists for this event kind). -/
structure EventData where
  entityID : String
  defaultAction : Option Action
  defaultActionErr : Option GoError
  defaultFaultAction : Option Action
  defaultFaultActionErr : Option GoError
deriving DecidableEq, Repr

/-- A `signal.Event`: either a `*signal.ProcSetEvent` (handled by the
separate `makeActionForProcSetEvent`, whose code is outside this file) or a
generic event described by its capability record. -/
inductive Event where
  | procSet (entityID : String)
  | generic (d : EventData)
deriving DecidableEq, Repr

/-- `event.EntityID()`. -/
def Event.entityID : Event → String
  | .procSet e => e
  | .generic d => d.entityID

/-- The configuration fields of the `Random` explore policy engine
(`struct Random` in randompolicy.go), plus the `shelActionRoutineRunning`
flag [sic — the field is misspelt in the source].  The two channels and the
queue handle are stateless handles and are omitted. -/
@[ext]
structure Random where
  shelActionRoutineRunning : Bool
  MinInterval : Int
  MaxInterval : Int
  PrioritizedEntities : Finset String
  ShellActionInterval : Int
  ShellActionCommand : String
  FaultActionProbability : ℚ
  ProcResetSchedProbability : ℚ
deriving DecidableEq

/-- `New()`: the initial engine state (the float literal `0.1` is embedded
as the rational `1/10` it denotes up to float rounding). -/
def New : Random where
  shelActionRoutineRunning := false
  MinInterval := 0
  MaxInterval := 0
  PrioritizedEntities := ∅
  ShellActionInterval := 0
  ShellActionCommand := ""
  FaultActionProbability := 0
  ProcResetSchedProbability := 1/10

/-- Go's conversion `int(x)` / `int64(x)` of a float64 value to an integer
type truncates toward zero.  On the exact rational value this is
`num.tdiv den`. -/
def goTrunc (x : ℚ) : Int := Int.tdiv x.num x.den

/-- The weighted trial of `makeActionForEvent` (randompolicy.go line 228):
`rand.Intn(999) < int(r.FaultActionProbability*1000.0)`, with the uniform
draw of `rand.Intn(999)` (a uniform integer in `[0, 998]`) passed in
explicitly. -/
def faultTriggered (r : Random) (draw : Nat) : Bool :=
  decide ((draw : Int) < goTrunc (r.FaultActionProbability * 1000))

/-- `makeActionForEvent` (randompolicy.go lines 218-234).  The
`*signal.ProcSetEvent` branch delegates to `makeActionForProcSetEvent`,
whose code is not part of this file; its result is taken as the parameter
`procSetHandler`.  For a generic event: obtain the default action and the
default fault action; if the fault action is `nil` return the default pair;
otherwise return the fault pair exactly when the weighted trial fires, else
the default pair. -/
def makeActionForEvent (r : Random)
    (procSetHandler : String → Option Action × Option GoError)
    (draw : Nat) : Event → Option Action × Option GoError
  | .procSet eid => procSetHandler eid
  | .generic d =>
    match d.defaultFaultAction with
    | none => (d.defaultAction, d.defaultActionErr)
    | some fa =>
      if faultTriggered r draw then
        (some fa, d.defaultFaultActionErr)
      else
        (d.defaultAction, d.defaultActionErr)

/-- The fraction of the `999` equally-likely values of `rand.Intn(999)`
(the uniform draws in `[0, 998]`) on which the weighted trial of
`makeActionForEvent` selects the fault branch: the probability that the
decision function returns the fault action for an event exposing one. -/
def faultFraction (r : Random) : ℚ :=
  (((Finset.range 999).filter (fun draw => faultTriggered r draw = true)).card : ℚ) / 999

/-- A time-bounded queue item (`queue.BasicTBQueueItem`): a value together
with its minimum and maximum release delays. -/
structure TBQueueItem where
  value : Event
  minDelay : Int
  maxDelay : Int
deriving DecidableEq

/-- Modelled from the spec: `queue.NewBasicTBQueueItem` lives in package
`earthquake/util/queue`, which is not under src/.  Spec §3 "Queue Item":
"construction fails if delay bounds are invalid (e.g., negative, or
min>max)"; spec §9: enqueue "must reject minDelay>maxDelay or negative
delays".  So construction succeeds exactly when `0 ≤ minDelay ≤ maxDelay`. -/
def NewBasicTBQueueItem (ev : Event) (minDelay maxDelay : Int) :
    Except GoError TBQueueItem :=
  if 0 ≤ minDelay ∧ minDelay ≤ maxDelay then
    .ok ⟨ev, minDelay, maxDelay⟩
  else
    .error ⟨"invalid delay bounds"⟩

/-- `time.Duration(float64(d) * 0.8)` (randompolicy.go lines 256-257): the
duration is converted to float64, multiplied by the coefficient 0.8, and
converted back to `time.Duration` (int64), which truncates toward zero.
Embedded as exact scaling by the rational 4/5 followed by Go's truncating
conversion: `tdiv (4*d) 5`.  (For durations of realistic magnitude the
float64 product lies strictly between the same two integers as the exact
product, or is exactly the same integer, so the truncations agree.) -/
def scale08 (d : Int) : Int := Int.tdiv (4 * d) 5

/-- Lines 251-258 of `QueueEvent`: the effective delay bounds start as the
configured `MinInterval`/`MaxInterval` and are both scaled by the magic
coefficient 0.8 when the event's entity id is in `PrioritizedEntities`. -/
def effectiveBounds (r : Random) (ev : Event) : Int × Int :=
  if ev.entityID ∈ r.PrioritizedEntities then
    (scale08 r.MinInterval, scale08 r.MaxInterval)
  else
    (r.MinInterval, r.MaxInterval)

/-- Outcome of `QueueEvent`: the constructed item is enqueued, or the
construction error is passed to `panic(log.Critical(err))`, terminating the
process. -/
inductive QueueEventOutcome where
  | enqueued (item : TBQueueItem)
  | fatal (e : GoError)
deriving DecidableEq

/-- `QueueEvent` (randompolicy.go lines 250-264). -/
def QueueEvent (r : Random) (ev : Event) : QueueEventOutcome :=
  match NewBasicTBQueueItem ev (effectiveBounds r ev).1 (effectiveBounds r ev).2 with
  | .ok item => .enqueued item
  | .error e => .fatal e

/-- The configuration key-value source (`config.Config`), restricted to the
keys `LoadConfig` reads.  `none` means the key is not set (`cfg.IsSet` is
false); for `prioritizedEntities` it also covers `GetStringSlice` returning
nil, which `LoadConfig` treats the same way.  The `explorePolicy` key is
read only to warn on a name mismatch and has no effect on the state. -/
structure Config where
  explorePolicy : Option String
  minInterval : Option Int
  maxInterval : Option Int
  prioritizedEntities : Option (List String)
  shellActionInterval : Option Int
  shellActionCommand : Option String
  faultActionProbability : Option ℚ
  procResetSchedProbability : Option ℚ
deriving DecidableEq

/-- The loop at lines 137-139: `r.PrioritizedEntities[slice[i]] = true` for
each element of the slice (set insertion; existing members are kept). -/
def insertAll (s : Finset String) (l : List String) : Finset String :=
  l.foldl (fun acc x => insert x acc) s

/-- The observable result of one `LoadConfig` call: the engine state after
the call (Go mutates the receiver in place, so this is the state even when
an error is returned), the returned error, and whether this call spawned
the `shellFaultInjectionRoutine` goroutine (line 167). -/
structure LoadResult where
  state : Random
  err : Option GoError
  spawned : Bool
deriving DecidableEq

/-- The in-place field updates of `LoadConfig` (lines 114-154) that happen
before any validation: `minInterval`, then `maxInterval` (defaulting to the
just-updated `minInterval` when absent), then merging
`prioritizedEntities`, then `shellActionInterval` and
`shellActionCommand`. -/
def applyPre (r : Random) (cfg : Config) : Random :=
  let r1 := { r with MinInterval := cfg.minInterval.getD r.MinInterval }
  let r2 := { r1 with MaxInterval := cfg.maxInterval.getD r1.MinInterval }
  let r3 :=
    match cfg.prioritizedEntities with
    | some slice => { r2 with PrioritizedEntities := insertAll r2.PrioritizedEntities slice }
    | none => r2
  let r4 := { r3 with ShellActionInterval := cfg.shellActionInterval.getD r3.ShellActionInterval }
  { r4 with ShellActionCommand := cfg.shellActionCommand.getD r4.ShellActionCommand }

/-- `LoadConfig` (randompolicy.go lines 108-188).  After the unvalidated
field updates of `applyPre`: error out if `ShellActionInterval` is negative
(line 156); spawn the shell fault injection goroutine if the interval is
positive and the routine is not yet running (lines 164-168); apply and then
validate `faultActionProbability` (lines 170-177); apply and then validate
`procResetSchedProbability` (lines 179-186).  Each validation failure
returns an error with all updates made so far left in place. -/
def LoadConfig (r : Random) (cfg : Config) : LoadResult :=
  let r5 := applyPre r cfg
  if r5.ShellActionInterval < 0 then
    ⟨r5, some ⟨"shellActionInterval must be non-negative value"⟩, false⟩
  else
    let spawned := decide (0 < r5.ShellActionInterval) && !r5.shelActionRoutineRunning
    let r6 := if spawned then { r5 with shelActionRoutineRunning := true } else r5
    let r7 := { r6 with FaultActionProbability := cfg.faultActionProbability.getD r6.FaultActionProbability }
    if r7.FaultActionProbability < 0 ∨ 1 < r7.FaultActionProbability then
      ⟨r7, some ⟨"bad faultActionProbability"⟩, spawned⟩
    else
      let r8 := { r7 with ProcResetSchedProbability := cfg.procResetSchedProbability.getD r7.ProcResetSchedProbability }
      if r8.ProcResetSchedProbability < 0 ∨ 1 < r8.ProcResetSchedProbability then
        ⟨r8, some ⟨"bad procResetSchedProbability"⟩, spawned⟩
      else
        ⟨r8, none, spawned⟩

/-- Proof-internal normal form of `LoadConfig` (see `LoadConfig_eq_NF`):
the same result with every field update expressed directly over the initial
state, so that the branch conditions of different occurrences coincide
syntactically. -/
def LoadConfigNF (r : Random) (cfg : Config) : LoadResult :=
  let minI := cfg.minInterval.getD r.MinInterval
  let maxI := cfg.maxInterval.getD minI
  let pe := r.PrioritizedEntities ∪ (cfg.prioritizedEntities.getD []).toFinset
  let shell := cfg.shellActionInterval.getD r.ShellActionInterval
  let cmd := cfg.shellActionCommand.getD r.ShellActionCommand
  if shell < 0 then
    ⟨⟨r.shelActionRoutineRunning, minI, maxI, pe, shell, cmd,
      r.FaultActionProbability, r.ProcResetSchedProbability⟩,
     some ⟨"shellActionInterval must be non-negative value"⟩, false⟩
  else
    let spawned := !r.shelActionRoutineRunning && decide (0 < shell)
    let running := r.shelActionRoutineRunning || decide (0 < shell)
    let fault := cfg.faultActionProbability.getD r.FaultActionProbability
    if fault < 0 ∨ 1 < fault then
      ⟨⟨running, minI, maxI, pe, shell, cmd, fault, r.ProcResetSchedProbability⟩,
       some ⟨"bad faultActionProbability"⟩, spawned⟩
    else
      let proc := cfg.procResetSchedProbability.getD r.ProcResetSchedProbability
      ⟨⟨running, minI, maxI, pe, shell, cmd, fault, proc⟩,
       if proc < 0 ∨ 1 < proc then some ⟨"bad procResetSchedProbability"⟩ else none,
       spawned⟩

/-- A sequence of `LoadConfig` calls on one engine instance, returning the
final state and the number of calls that spawned a
`shellFaultInjectionRoutine` goroutine. -/
def runLoadConfigs : Random → List Config → Random × Nat
  | r, [] => (r, 0)
  | r, cfg :: rest =>
    let res := LoadConfig r cfg
    let rec' := runLoadConfigs res.state rest
    (rec'.1, (if res.spawned then 1 else 0) + rec'.2)

/-- `dequeueEventRoutine` (randompolicy.go lines 237-248), embodied on an
explicit finite prefix of the released queue items, each paired with the
`rand.Intn(999)` draw its decision consumes.  The routine sends each decided
action to `nextActionChan`; on a decision error it calls
`panic(log.Critical(err))`, terminating the process: the actions emitted so
far are returned together with the fatal error, the failing item is not
retried, and later items are never processed. -/
def dequeueEventRoutine (r : Random)
    (procSetHandler : String → Option Action × Option GoError) :
    List (Nat × Event) → List (Option Action) × Option GoError
  | [] => ([], none)
  | (draw, ev) :: rest =>
    match makeActionForEvent r procSetHandler draw ev with
    | (_, some e) => ([], some e)
    | (a, none) =>
      let res := dequeueEventRoutine r procSetHandler rest
      (a :: res.1, res.2)

/-! ## Concrete sample values used by witnesses and counterexamples -/

/-- A trivial stand-in for `makeActionForProcSetEvent` (its code is outside
this file); the claims below only concern non-process-scheduling events. -/
def noProcSet : String → Option Action × Option GoError := fun _ => (none, none)

/-- A well-behaved event exposing both a default action and a fault
action. -/
def sampleEvent : EventData where
  entityID := "entity-a"
  defaultAction := some ⟨"default"⟩
  defaultActionErr := none
  defaultFaultAction := some ⟨"packet-fault"⟩
  defaultFaultActionErr := none

/-- An event whose `DefaultAction()` fails but whose `DefaultFaultAction()`
succeeds. -/
def brokenDefaultEvent : EventData where
  entityID := "entity-b"
  defaultAction := none
  defaultActionErr := some ⟨"no default action"⟩
  defaultFaultAction := some ⟨"packet-fault"⟩
  defaultFaultActionErr := none

/-- The fresh engine with `faultActionProbability` set to 1/2. -/
def engineHalf : Random := { New with FaultActionProbability := 1/2 }

/-- The fresh engine with `faultActionProbability` set to 1/4. -/
def engineQuarter : Random := { New with FaultActionProbability := 1/4 }

/-- The fresh engine with `faultActionProbability` set to 1. -/
def engineOne : Random := { New with FaultActionProbability := 1 }

/-- The fresh engine with 1-nanosecond intervals and entity "entity-a"
prioritized. -/
def enginePrio1 : Random :=
  { New with MinInterval := 1, MaxInterval := 1, PrioritizedEntities := {"entity-a"} }

/-- The fresh engine with 10-nanosecond intervals and entity "entity-a"
prioritized. -/
def enginePrio10 : Random :=
  { New with MinInterval := 10, MaxInterval := 10, PrioritizedEntities := {"entity-a"} }

/-- A configuration that sets `minInterval` to 7 and an out-of-range
`faultActionProbability` of 2, everything else absent. -/
def badProbCfg : Config where
  explorePolicy := some "random"
  minInterval := some 7
  maxInterval := none
  prioritizedEntities := none
  shellActionInterval := none
  shellActionCommand := none
  faultActionProbability := some 2
  procResetSchedProbability := none

/-- A configuration with every key absent. -/
def emptyCfg : Config where
  explorePolicy := none
  minInterval := none
  maxInterval := none
  prioritizedEntities := none
  shellActionInterval := none
  shellActionCommand := none
  faultActionProbability := none
  procResetSchedProbability := none

/-- A representative full configuration. -/
def fullCfg : Config where
  explorePolicy := some "random"
  minInterval := some 10
  maxInterval := some 30
  prioritizedEntities := some ["entity-a", "entity-c"]
  shellActionInterval := some 5
  shellActionCommand := some "kill -9 $PID"
  faultActionProbability := some (1/4)
  procResetSchedProbability := some (1/2)

/-! ## Supporting lemmas -/

/-- For a nonnegative rational, Go's truncation toward zero agrees with the
floor. -/
theorem goTrunc_eq_floor (x : ℚ) (hx : 0 ≤ x) : goTrunc x = ⌊x⌋ := by
  have hnum : 0 ≤ x.num := Rat.num_nonneg.mpr hx
  have hden : (0 : Int) ≤ (x.den : Int) := Int.ofNat_nonneg x.den
  rw [goTrunc, Int.tdiv_eq_ediv hnum hden, Rat.floor_def]

/-- Counting the naturals below `m` among `0, ..., n-1`. -/
theorem range_filter_lt_card (n m : Nat) :
    ((Finset.range n).filter (fun d => d < m)).card = min m n := by
  have h : (Finset.range n).filter (fun d => d < m) = Finset.range (min m n) := by
    ext d
    simp only [Finset.mem_filter, Finset.mem_range]
    omega
  rw [h, Finset.card_range]

/-- The number of draws in `[0, 998]` on which the weighted trial fires is
`min ⌊p·1000⌋ 999`. -/
theorem faultTriggered_card (r : Random) (hp : 0 ≤ r.FaultActionProbability) :
    ((Finset.range 999).filter (fun draw => faultTriggered r draw = true)).card
      = min (⌊r.FaultActionProbability * 1000⌋.toNat) 999 := by
  have hmul : (0:ℚ) ≤ r.FaultActionProbability * 1000 := mul_nonneg hp (by norm_num)
  have hfl : (0:Int) ≤ ⌊r.FaultActionProbability * 1000⌋ := Int.floor_nonneg.mpr hmul
  have key : ∀ d ∈ Finset.range 999,
      (faultTriggered r d = true) ↔ d < ⌊r.FaultActionProbability * 1000⌋.toNat := by
    intro d _
    rw [faultTriggered, goTrunc_eq_floor _ hmul, decide_eq_true_iff]
    omega
  rw [Finset.filter_congr key, range_filter_lt_card]

/-- C1: for every non-process-scheduling event handed to
`makeActionForEvent`, if the event has no default fault action the default
pair is returned regardless of `faultActionProbability`; otherwise the
fault pair is returned exactly when the uniform draw in `[0, 998]` is less
than `⌊faultActionProbability · 1000⌋`, so probability 0 never selects the
fault action and probability 1 always does. -/
theorem makeActionForEvent_weighted_trial (r : Random)
    (procSetHandler : String → Option Action × Option GoError)
    (d : EventData) (draw : Nat) (hdraw : draw < 999)
    (hp : 0 ≤ r.FaultActionProbability) :
    (d.defaultFaultAction = none →
      makeActionForEvent r procSetHandler draw (.generic d)
        = (d.defaultAction, d.defaultActionErr)) ∧
    (∀ fa, d.defaultFaultAction = some fa →
      (makeActionForEvent r procSetHandler draw (.generic d)
        = if (draw : Int) < ⌊r.FaultActionProbability * 1000⌋ then
            (some fa, d.defaultFaultActionErr)
          else
            (d.defaultAction, d.defaultActionErr)) ∧
      (r.FaultActionProbability = 0 →
        makeActionForEvent r procSetHandler draw (.generic d)
          = (d.defaultAction, d.defaultActionErr)) ∧
      (r.FaultActionProbability = 1 →
        makeActionForEvent r procSetHandler draw (.generic d)
          = (some fa, d.defaultFaultActionErr))) := by
  have hmul : (0:ℚ) ≤ r.FaultActionProbability * 1000 := mul_nonneg hp (by norm_num)
  have htrig : faultTriggered r draw
      = decide ((draw : Int) < ⌊r.FaultActionProbability * 1000⌋) := by
    rw [faultTriggered, goTrunc_eq_floor _ hmul]
  have hmain : ∀ fa, d.defaultFaultAction = some fa →
      makeActionForEvent r procSetHandler draw (.generic d)
        = if (draw : Int) < ⌊r.FaultActionProbability * 1000⌋ then
            (some fa, d.defaultFaultActionErr)
          else
            (d.defaultAction, d.defaultActionErr) := by
    intro fa hfa
    simp only [makeActionForEvent, hfa, htrig]
    by_cases hc : (draw : Int) < ⌊r.FaultActionProbability * 1000⌋ <;> simp [hc]
  refine ⟨fun hnone => by simp [makeActionForEvent, hnone], fun fa hfa => ⟨hmain fa hfa, ?_, ?_⟩⟩
  · intro hp0
    have hc : ¬ ((draw : Int) < ⌊(0:ℚ) * 1000⌋) := by norm_num
    rw [hmain fa hfa, hp0, if_neg hc]
  · intro hp1
    have hc : (draw : Int) < ⌊(1:ℚ) * 1000⌋ := by
      have h1000 : ⌊(1:ℚ) * 1000⌋ = 1000 := by norm_num
      rw [h1000]
      omega
    rw [hmain fa hfa, hp1, if_pos hc]

/-- Closed instance of C1 at draw 5, probability 1/2, on `sampleEvent`. -/
theorem makeActionForEvent_weighted_trial_witness :
    (5 < 999 ∧ (0:ℚ) ≤ engineHalf.FaultActionProbability) ∧
    ((sampleEvent.defaultFaultAction = none →
      makeActionForEvent engineHalf noProcSet 5 (.generic sampleEvent)
        = (sampleEvent.defaultAction, sampleEvent.defaultActionErr)) ∧
    (∀ fa, sampleEvent.defaultFaultAction = some fa →
      (makeActionForEvent engineHalf noProcSet 5 (.generic sampleEvent)
        = if ((5:Nat) : Int) < ⌊engineHalf.FaultActionProbability * 1000⌋ then
            (some fa, sampleEvent.defaultFaultActionErr)
          else
            (sampleEvent.defaultAction, sampleEvent.defaultActionErr)) ∧
      (engineHalf.FaultActionProbability = 0 →
        makeActionForEvent engineHalf noProcSet 5 (.generic sampleEvent)
          = (sampleEvent.defaultAction, sampleEvent.defaultActionErr)) ∧
      (engineHalf.FaultActionProbability = 1 →
        makeActionForEvent engineHalf noProcSet 5 (.generic sampleEvent)
          = (some fa, sampleEvent.defaultFaultActionErr)))) :=
  ⟨⟨by norm_num, by norm_num [engineHalf, New]⟩,
   makeActionForEvent_weighted_trial engineHalf noProcSet sampleEvent 5 (by norm_num)
     (by norm_num [engineHalf, New])⟩

/-- C2 (counterexample): at `faultActionProbability = 1/2` the fraction of
the 999 equally-likely draws that select the fault branch is `500/999`,
which is not `1/2`. -/
theorem faultFraction_half_ne_half :
    faultFraction engineHalf = 500/999 ∧ faultFraction engineHalf ≠ 1/2 := by
  have hp : (0:ℚ) ≤ engineHalf.FaultActionProbability := by norm_num [engineHalf, New]
  have hcard := faultTriggered_card engineHalf hp
  have hfl : ⌊engineHalf.FaultActionProbability * 1000⌋ = 500 := by
    norm_num [engineHalf, New]
  rw [hfl] at hcard
  have h500 : faultFraction engineHalf = 500/999 := by
    rw [faultFraction, hcard]
    norm_num [show Int.toNat 500 = 500 from rfl]
  exact ⟨h500, by rw [h500]; norm_num⟩

/-- C2 (amended): for `p ∈ [0,1]`, the fraction of the 999 equally-likely
draws of `rand.Intn(999)` that select the fault branch is
`min ⌊p·1000⌋ 999 / 999` (not `p` itself in general); it is `0` at `p = 0`
and `1` at `p = 1`. -/
theorem faultFraction_formula (r : Random)
    (hp0 : 0 ≤ r.FaultActionProbability) (hp1 : r.FaultActionProbability ≤ 1) :
    faultFraction r = ((min ⌊r.FaultActionProbability * 1000⌋ 999 : Int) : ℚ) / 999 ∧
    (r.FaultActionProbability = 0 → faultFraction r = 0) ∧
    (r.FaultActionProbability = 1 → faultFraction r = 1) := by
  have hfl : (0:Int) ≤ ⌊r.FaultActionProbability * 1000⌋ :=
    Int.floor_nonneg.mpr (mul_nonneg hp0 (by norm_num))
  have hmain : faultFraction r
      = ((min ⌊r.FaultActionProbability * 1000⌋ 999 : Int) : ℚ) / 999 := by
    rw [faultFraction, faultTriggered_card r hp0]
    have hcast : ((min (⌊r.FaultActionProbability * 1000⌋.toNat) 999 : Nat) : Int)
        = min ⌊r.FaultActionProbability * 1000⌋ 999 := by
      omega
    rw [← hcast]
    push_cast
    ring
  refine ⟨hmain, fun h0 => ?_, fun h1 => ?_⟩
  · rw [hmain, h0]
    norm_num
  · rw [hmain, h1]
    norm_num

/-- `scale08` is the floor of the exact product `0.8 · d` for nonnegative
`d`. -/
theorem scale08_eq_floor (d : Int) (hd : 0 ≤ d) :
    scale08 d = ⌊(4 * (d:ℚ)) / 5⌋ := by
  have h4 : (0:Int) ≤ 4 * d := by linarith
  rw [scale08, Int.tdiv_eq_ediv h4 (by norm_num)]
  have hcast : (4 * (d:ℚ)) / 5 = ((4 * d : Int) : ℚ) / ((5:ℕ) : ℚ) := by
    push_cast
    ring
  rw [hcast, Rat.floor_intCast_div_natCast]
  norm_cast

/-- When the duration is a multiple of 5 nanoseconds, the 0.8 scaling is
exact. -/
theorem scale08_exact (d : Int) (hd : (5:Int) ∣ d) :
    ((scale08 d : Int) : ℚ) = (4/5) * (d : ℚ) := by
  obtain ⟨k, rfl⟩ := hd
  have hsc : scale08 (5 * k) = 4 * k := by
    rw [scale08]
    have h45 : 4 * (5 * k) = (4 * k) * 5 := by ring
    rw [h45, Int.mul_tdiv_cancel _ (by norm_num)]
  rw [hsc]
  push_cast
  ring

/-- Whatever item `QueueEvent` enqueues carries the event and the effective
bounds it computed. -/
theorem queueEvent_enqueued_bounds (r : Random) (ev : Event) (item : TBQueueItem)
    (h : QueueEvent r ev = .enqueued item) :
    item.value = ev ∧ item.minDelay = (effectiveBounds r ev).1
      ∧ item.maxDelay = (effectiveBounds r ev).2 := by
  obtain ⟨v, mn, mx⟩ := item
  rw [QueueEvent, NewBasicTBQueueItem] at h
  split_ifs at h with hc
  simp only [QueueEventOutcome.enqueued.injEq, TBQueueItem.mk.injEq] at h
  exact ⟨h.1.symm, h.2.1.symm, h.2.2.symm⟩

/-- Closed instance of the amended C2 at `p = 1/4`. -/
theorem faultFraction_formula_witness :
    ((0:ℚ) ≤ engineQuarter.FaultActionProbability
      ∧ engineQuarter.FaultActionProbability ≤ 1) ∧
    (faultFraction engineQuarter
      = ((min ⌊engineQuarter.FaultActionProbability * 1000⌋ 999 : Int) : ℚ) / 999 ∧
    (engineQuarter.FaultActionProbability = 0 → faultFraction engineQuarter = 0) ∧
    (engineQuarter.FaultActionProbability = 1 → faultFraction engineQuarter = 1)) :=
  ⟨⟨by norm_num [engineQuarter, New], by norm_num [engineQuarter, New]⟩,
   faultFraction_formula engineQuarter (by norm_num [engineQuarter, New])
     (by norm_num [engineQuarter, New])⟩

/-- C3 (counterexample): with both intervals configured to 1 ns and the
event's entity prioritized, `QueueEvent` submits an item with delay bounds
`(0, 0)`, yet `0.8 × 1 = 4/5 ≠ 0` — the scaled bounds are truncated, not
exactly 0.8 times the configured intervals. -/
theorem queueEvent_scaling_not_exact :
    QueueEvent enginePrio1 (.generic sampleEvent)
      = .enqueued ⟨.generic sampleEvent, 0, 0⟩ ∧
    ((0 : ℚ) ≠ (4/5 : ℚ) * ((enginePrio1.MinInterval : Int) : ℚ)) := by
  constructor
  · decide
  · have h1 : enginePrio1.MinInterval = 1 := rfl
    rw [h1]
    norm_num

/-- C3 (amended): for nonnegative configured intervals, the delay bounds of
the item `QueueEvent` submits for a prioritized event are
`⌊0.8 · interval⌋` — the scaled values truncated to whole nanoseconds,
exactly `0.8 ×` whenever the configured interval is a multiple of 5 ns —
and for an unprioritized event exactly the unscaled configured values. -/
theorem queueEvent_bounds (r : Random) (ev : Event)
    (hmin : 0 ≤ r.MinInterval) (hmax : 0 ≤ r.MaxInterval) :
    (ev.entityID ∈ r.PrioritizedEntities →
      ∀ item, QueueEvent r ev = .enqueued item →
        (item.minDelay = ⌊(4 * (r.MinInterval : ℚ)) / 5⌋
          ∧ item.maxDelay = ⌊(4 * (r.MaxInterval : ℚ)) / 5⌋)
        ∧ ((5:Int) ∣ r.MinInterval → ((item.minDelay : Int) : ℚ) = (4/5) * (r.MinInterval : ℚ))
        ∧ ((5:Int) ∣ r.MaxInterval → ((item.maxDelay : Int) : ℚ) = (4/5) * (r.MaxInterval : ℚ))) ∧
    (ev.entityID ∉ r.PrioritizedEntities →
      ∀ item, QueueEvent r ev = .enqueued item →
        item.minDelay = r.MinInterval ∧ item.maxDelay = r.MaxInterval) := by
  constructor
  · intro hprio item hq
    obtain ⟨hv, hmn, hmx⟩ := queueEvent_enqueued_bounds r ev item hq
    rw [effectiveBounds, if_pos hprio] at hmn hmx
    refine ⟨⟨?_, ?_⟩, ?_, ?_⟩
    · rw [hmn]
      exact scale08_eq_floor _ hmin
    · rw [hmx]
      exact scale08_eq_floor _ hmax
    · intro hdvd
      rw [hmn]
      exact scale08_exact _ hdvd
    · intro hdvd
      rw [hmx]
      exact scale08_exact _ hdvd
  · intro hnp item hq
    obtain ⟨hv, hmn, hmx⟩ := queueEvent_enqueued_bounds r ev item hq
    rw [effectiveBounds, if_neg hnp] at hmn hmx
    exact ⟨hmn, hmx⟩

/-- Closed instance of the amended C3 on the engine with 10 ns intervals. -/
theorem queueEvent_bounds_witness :
    ((0:Int) ≤ enginePrio10.MinInterval ∧ (0:Int) ≤ enginePrio10.MaxInterval) ∧
    ((Event.entityID (.generic sampleEvent) ∈ enginePrio10.PrioritizedEntities →
      ∀ item, QueueEvent enginePrio10 (.generic sampleEvent) = .enqueued item →
        (item.minDelay = ⌊(4 * (enginePrio10.MinInterval : ℚ)) / 5⌋
          ∧ item.maxDelay = ⌊(4 * (enginePrio10.MaxInterval : ℚ)) / 5⌋)
        ∧ ((5:Int) ∣ enginePrio10.MinInterval →
            ((item.minDelay : Int) : ℚ) = (4/5) * (enginePrio10.MinInterval : ℚ))
        ∧ ((5:Int) ∣ enginePrio10.MaxInterval →
            ((item.maxDelay : Int) : ℚ) = (4/5) * (enginePrio10.MaxInterval : ℚ))) ∧
    (Event.entityID (.generic sampleEvent) ∉ enginePrio10.PrioritizedEntities →
      ∀ item, QueueEvent enginePrio10 (.generic sampleEvent) = .enqueued item →
        item.minDelay = enginePrio10.MinInterval ∧ item.maxDelay = enginePrio10.MaxInterval)) :=
  ⟨⟨by decide, by decide⟩,
   queueEvent_bounds enginePrio10 (.generic sampleEvent) (by decide) (by decide)⟩

/-- C6: whenever `0 ≤ minInterval ≤ maxInterval`, the queue-item
construction in `QueueEvent` succeeds — the fatal branch is unreachable —
because the 0.8 scaling preserves nonnegativity and the `min ≤ max`
relation of the bounds. -/
theorem queueEvent_construction_safe (r : Random) (ev : Event)
    (h0 : 0 ≤ r.MinInterval) (h1 : r.MinInterval ≤ r.MaxInterval) :
    ∃ item, QueueEvent r ev = .enqueued item := by
  have hb : 0 ≤ (effectiveBounds r ev).1
      ∧ (effectiveBounds r ev).1 ≤ (effectiveBounds r ev).2 := by
    rw [effectiveBounds]
    split_ifs
    · constructor
      · rw [scale08]
        exact Int.tdiv_nonneg (by linarith) (by norm_num)
      · rw [scale08, scale08, Int.tdiv_eq_ediv (by linarith) (by norm_num),
          Int.tdiv_eq_ediv (by linarith) (by norm_num)]
        exact Int.ediv_le_ediv (by norm_num) (by linarith)
    · exact ⟨h0, h1⟩
  refine ⟨⟨ev, (effectiveBounds r ev).1, (effectiveBounds r ev).2⟩, ?_⟩
  rw [QueueEvent, NewBasicTBQueueItem, if_pos hb]

/-- Closed instance of C6 on the engine with 10 ns intervals. -/
theorem queueEvent_construction_safe_witness :
    ((0:Int) ≤ enginePrio10.MinInterval
      ∧ enginePrio10.MinInterval ≤ enginePrio10.MaxInterval) ∧
    (∃ item, QueueEvent enginePrio10 (.generic sampleEvent) = .enqueued item) :=
  ⟨⟨by decide, by decide⟩,
   queueEvent_construction_safe enginePrio10 (.generic sampleEvent) (by decide) (by decide)⟩

/-- Folding set insertion over a list is union with the list's elements. -/
theorem insertAll_eq_union (s : Finset String) (l : List String) :
    insertAll s l = s ∪ l.toFinset := by
  induction l generalizing s with
  | nil => simp [insertAll]
  | cons x xs ih =>
    rw [insertAll, List.foldl_cons]
    have hstep : xs.foldl (fun acc y => insert y acc) (insert x s) = insertAll (insert x s) xs := rfl
    rw [hstep, ih, List.toFinset_cons]
    ext a
    simp only [Finset.mem_union, Finset.mem_insert, List.mem_toFinset]
    tauto

theorem applyPre_min (r : Random) (cfg : Config) :
    (applyPre r cfg).MinInterval = cfg.minInterval.getD r.MinInterval := by
  cases hpe : cfg.prioritizedEntities <;> simp [applyPre, hpe]

theorem applyPre_max (r : Random) (cfg : Config) :
    (applyPre r cfg).MaxInterval = cfg.maxInterval.getD (cfg.minInterval.getD r.MinInterval) := by
  cases hpe : cfg.prioritizedEntities <;> simp [applyPre, hpe]

theorem applyPre_pe (r : Random) (cfg : Config) :
    (applyPre r cfg).PrioritizedEntities
      = r.PrioritizedEntities ∪ (cfg.prioritizedEntities.getD []).toFinset := by
  cases hpe : cfg.prioritizedEntities with
  | none => simp [applyPre, hpe]
  | some l => simp [applyPre, hpe, insertAll_eq_union]

theorem applyPre_shell (r : Random) (cfg : Config) :
    (applyPre r cfg).ShellActionInterval
      = cfg.shellActionInterval.getD r.ShellActionInterval := by
  cases hpe : cfg.prioritizedEntities <;> simp [applyPre, hpe]

theorem applyPre_cmd (r : Random) (cfg : Config) :
    (applyPre r cfg).ShellActionCommand
      = cfg.shellActionCommand.getD r.ShellActionCommand := by
  cases hpe : cfg.prioritizedEntities <;> simp [applyPre, hpe]

theorem applyPre_running (r : Random) (cfg : Config) :
    (applyPre r cfg).shelActionRoutineRunning = r.shelActionRoutineRunning := by
  cases hpe : cfg.prioritizedEntities <;> simp [applyPre, hpe]

theorem applyPre_fault (r : Random) (cfg : Config) :
    (applyPre r cfg).FaultActionProbability = r.FaultActionProbability := by
  cases hpe : cfg.prioritizedEntities <;> simp [applyPre, hpe]

theorem applyPre_proc (r : Random) (cfg : Config) :
    (applyPre r cfg).ProcResetSchedProbability = r.ProcResetSchedProbability := by
  cases hpe : cfg.prioritizedEntities <;> simp [applyPre, hpe]

theorem loadConfig_state_min (r : Random) (cfg : Config) :
    (LoadConfig r cfg).state.MinInterval = cfg.minInterval.getD r.MinInterval := by
  simp only [LoadConfig]
  split_ifs <;> simp [applyPre_min]

theorem loadConfig_state_max (r : Random) (cfg : Config) :
    (LoadConfig r cfg).state.MaxInterval
      = cfg.maxInterval.getD (cfg.minInterval.getD r.MinInterval) := by
  simp only [LoadConfig]
  split_ifs <;> simp [applyPre_max]

theorem loadConfig_state_pe (r : Random) (cfg : Config) :
    (LoadConfig r cfg).state.PrioritizedEntities
      = r.PrioritizedEntities ∪ (cfg.prioritizedEntities.getD []).toFinset := by
  simp only [LoadConfig]
  split_ifs <;> simp [applyPre_pe]

theorem loadConfig_state_shell (r : Random) (cfg : Config) :
    (LoadConfig r cfg).state.ShellActionInterval
      = cfg.shellActionInterval.getD r.ShellActionInterval := by
  simp only [LoadConfig]
  split_ifs <;> simp [applyPre_shell]

theorem loadConfig_state_cmd (r : Random) (cfg : Config) :
    (LoadConfig r cfg).state.ShellActionCommand
      = cfg.shellActionCommand.getD r.ShellActionCommand := by
  simp only [LoadConfig]
  split_ifs <;> simp [applyPre_cmd]

/-- `LoadConfig` computes its normal form. -/
theorem LoadConfig_eq_NF (r : Random) (cfg : Config) :
    LoadConfig r cfg = LoadConfigNF r cfg := by
  have hpre : applyPre r cfg = ⟨r.shelActionRoutineRunning,
      cfg.minInterval.getD r.MinInterval,
      cfg.maxInterval.getD (cfg.minInterval.getD r.MinInterval),
      r.PrioritizedEntities ∪ (cfg.prioritizedEntities.getD []).toFinset,
      cfg.shellActionInterval.getD r.ShellActionInterval,
      cfg.shellActionCommand.getD r.ShellActionCommand,
      r.FaultActionProbability, r.ProcResetSchedProbability⟩ := by
    ext1 <;>
      simp [applyPre_running, applyPre_min, applyPre_max, applyPre_pe,
        applyPre_shell, applyPre_cmd, applyPre_fault, applyPre_proc]
  simp only [LoadConfig, LoadConfigNF, hpre]
  cases hrb : r.shelActionRoutineRunning <;> split_ifs <;> simp_all

theorem loadConfig_state_running (r : Random) (cfg : Config) :
    (LoadConfig r cfg).state.shelActionRoutineRunning
      = (r.shelActionRoutineRunning
          || decide (0 < cfg.shellActionInterval.getD r.ShellActionInterval)) := by
  rw [LoadConfig_eq_NF]
  simp only [LoadConfigNF]
  split_ifs with h1 <;> simp_all
  omega

theorem loadConfig_spawned (r : Random) (cfg : Config) :
    (LoadConfig r cfg).spawned
      = (!r.shelActionRoutineRunning
          && decide (0 < cfg.shellActionInterval.getD r.ShellActionInterval)) := by
  rw [LoadConfig_eq_NF]
  simp only [LoadConfigNF]
  split_ifs with h1 <;> simp_all
  omega

theorem loadConfig_state_fault (r : Random) (cfg : Config) :
    (LoadConfig r cfg).state.FaultActionProbability
      = (if cfg.shellActionInterval.getD r.ShellActionInterval < 0 then
           r.FaultActionProbability
         else
           cfg.faultActionProbability.getD r.FaultActionProbability) := by
  rw [LoadConfig_eq_NF]
  simp only [LoadConfigNF]
  split_ifs <;> simp_all

theorem loadConfig_state_proc (r : Random) (cfg : Config) :
    (LoadConfig r cfg).state.ProcResetSchedProbability
      = (if cfg.shellActionInterval.getD r.ShellActionInterval < 0
            ∨ ((cfg.faultActionProbability.getD r.FaultActionProbability) < 0
                ∨ 1 < (cfg.faultActionProbability.getD r.FaultActionProbability)) then
           r.ProcResetSchedProbability
         else
           cfg.procResetSchedProbability.getD r.ProcResetSchedProbability) := by
  rw [LoadConfig_eq_NF]
  simp only [LoadConfigNF]
  by_cases h1 : cfg.shellActionInterval.getD r.ShellActionInterval < 0
  · rw [if_pos h1, if_pos (Or.inl h1)]
  · rw [if_neg h1]
    by_cases h2 : cfg.faultActionProbability.getD r.FaultActionProbability < 0
        ∨ 1 < cfg.faultActionProbability.getD r.FaultActionProbability
    · rw [if_pos h2, if_pos (Or.inr h2)]
    · have h12 : ¬(cfg.shellActionInterval.getD r.ShellActionInterval < 0
          ∨ (cfg.faultActionProbability.getD r.FaultActionProbability < 0
              ∨ 1 < cfg.faultActionProbability.getD r.FaultActionProbability)) := by
        tauto
      rw [if_neg h2, if_neg h12]

/-- Once the running flag is set, no later `LoadConfig` call spawns the
routine again, and the flag stays set. -/
theorem runLoadConfigs_zero_of_running (cfgs : List Config) (r : Random)
    (h : r.shelActionRoutineRunning = true) :
    (runLoadConfigs r cfgs).2 = 0
      ∧ (runLoadConfigs r cfgs).1.shelActionRoutineRunning = true := by
  induction cfgs generalizing r with
  | nil => simpa [runLoadConfigs]
  | cons c cs ih =>
    have hrun : (LoadConfig r c).state.shelActionRoutineRunning = true := by
      rw [loadConfig_state_running, h, Bool.true_or]
    have hsp : (LoadConfig r c).spawned = false := by
      rw [loadConfig_spawned, h]
      rfl
    have hrest := ih (LoadConfig r c).state hrun
    simp [runLoadConfigs, hsp, hrest.1, hrest.2]

/-- Starting from a state where the routine is not yet running, a sequence
of `LoadConfig` calls spawns it at most once. -/
theorem runLoadConfigs_le_one (cfgs : List Config) (r : Random)
    (h : r.shelActionRoutineRunning = false) :
    (runLoadConfigs r cfgs).2 ≤ 1 := by
  induction cfgs generalizing r with
  | nil => simp [runLoadConfigs]
  | cons c cs ih =>
    by_cases hsp : (LoadConfig r c).spawned = true
    · have hd : decide (0 < c.shellActionInterval.getD r.ShellActionInterval) = true := by
        rw [loadConfig_spawned] at hsp
        exact (Bool.and_eq_true_iff.mp hsp).2
      have hrun : (LoadConfig r c).state.shelActionRoutineRunning = true := by
        rw [loadConfig_state_running, hd, Bool.or_true]
      have hrest := runLoadConfigs_zero_of_running cs (LoadConfig r c).state hrun
      simp [runLoadConfigs, hsp, hrest.1]
    · have hsp' : (LoadConfig r c).spawned = false := by
        simpa using hsp
      have hd : decide (0 < c.shellActionInterval.getD r.ShellActionInterval) = false := by
        rw [loadConfig_spawned, h, Bool.not_false, Bool.true_and] at hsp'
        exact hsp'
      have hrun : (LoadConfig r c).state.shelActionRoutineRunning = false := by
        rw [loadConfig_state_running, h, hd]
        rfl
      have hrest := ih (LoadConfig r c).state hrun
      simpa [runLoadConfigs, hsp'] using hrest

/-- C4: per engine instance, at most one periodic shell-injection routine is
ever spawned over any sequence of `LoadConfig` calls starting from `New`; a
call spawns it exactly when the routine is not yet running and the call
leaves `ShellActionInterval` positive; and once the running flag is set no
call clears it or spawns again — reconfiguration (including setting the
interval back to 0) never stops or restarts the routine. -/
theorem shell_routine_spawned_at_most_once (cfgs : List Config)
    (r : Random) (cfg : Config) :
    (runLoadConfigs New cfgs).2 ≤ 1 ∧
    ((LoadConfig r cfg).spawned = true ↔
      (r.shelActionRoutineRunning = false
        ∧ 0 < (LoadConfig r cfg).state.ShellActionInterval)) ∧
    (r.shelActionRoutineRunning = true →
      (LoadConfig r cfg).state.shelActionRoutineRunning = true
        ∧ (LoadConfig r cfg).spawned = false) := by
  refine ⟨runLoadConfigs_le_one cfgs New rfl, ?_, ?_⟩
  · rw [loadConfig_spawned, loadConfig_state_shell]
    constructor
    · intro hsp
      have := Bool.and_eq_true_iff.mp hsp
      refine ⟨by simpa using this.1, by simpa using this.2⟩
    · rintro ⟨h1, h2⟩
      rw [h1]
      simpa using h2
  · intro h
    constructor
    · rw [loadConfig_state_running, h, Bool.true_or]
    · rw [loadConfig_spawned, h]
      rfl

/-- Closed instance of C4 on a concrete call sequence and call. -/
theorem shell_routine_spawned_at_most_once_witness :
    (runLoadConfigs New [fullCfg, emptyCfg, badProbCfg]).2 ≤ 1 ∧
    ((LoadConfig New fullCfg).spawned = true ↔
      (New.shelActionRoutineRunning = false
        ∧ 0 < (LoadConfig New fullCfg).state.ShellActionInterval)) ∧
    (New.shelActionRoutineRunning = true →
      (LoadConfig New fullCfg).state.shelActionRoutineRunning = true
        ∧ (LoadConfig New fullCfg).spawned = false) :=
  shell_routine_spawned_at_most_once [fullCfg, emptyCfg, badProbCfg] New fullCfg

/-- Applying a partial update twice retrieves the same value. -/
theorem getD_absorb {α : Type} (o : Option α) (a : α) :
    o.getD (o.getD a) = o.getD a := by
  cases o <;> rfl

/-- C7: `LoadConfig` applies only the keys present in the configuration
source — every absent parameter keeps its prior value — except
`maxInterval`, which when absent is set to the (possibly just-updated in
the same call) `minInterval`. -/
theorem loadConfig_frame (r : Random) (cfg : Config) :
    (cfg.minInterval = none →
      (LoadConfig r cfg).state.MinInterval = r.MinInterval) ∧
    (cfg.maxInterval = none →
      (LoadConfig r cfg).state.MaxInterval = (LoadConfig r cfg).state.MinInterval) ∧
    (cfg.prioritizedEntities = none →
      (LoadConfig r cfg).state.PrioritizedEntities = r.PrioritizedEntities) ∧
    (cfg.shellActionInterval = none →
      (LoadConfig r cfg).state.ShellActionInterval = r.ShellActionInterval) ∧
    (cfg.shellActionCommand = none →
      (LoadConfig r cfg).state.ShellActionCommand = r.ShellActionCommand) ∧
    (cfg.faultActionProbability = none →
      (LoadConfig r cfg).state.FaultActionProbability = r.FaultActionProbability) ∧
    (cfg.procResetSchedProbability = none →
      (LoadConfig r cfg).state.ProcResetSchedProbability = r.ProcResetSchedProbability) := by
  refine ⟨?_, ?_, ?_, ?_, ?_, ?_, ?_⟩
  · intro h
    rw [loadConfig_state_min, h]
    rfl
  · intro h
    rw [loadConfig_state_max, loadConfig_state_min, h]
    rfl
  · intro h
    rw [loadConfig_state_pe, h]
    simp
  · intro h
    rw [loadConfig_state_shell, h]
    rfl
  · intro h
    rw [loadConfig_state_cmd, h]
    rfl
  · intro h
    rw [loadConfig_state_fault, h]
    split_ifs <;> rfl
  · intro h
    rw [loadConfig_state_proc, h]
    split_ifs <;> rfl

/-- Closed instance of C7 on the all-absent configuration. -/
theorem loadConfig_frame_witness :
    (emptyCfg.minInterval = none →
      (LoadConfig engineHalf emptyCfg).state.MinInterval = engineHalf.MinInterval) ∧
    (emptyCfg.maxInterval = none →
      (LoadConfig engineHalf emptyCfg).state.MaxInterval
        = (LoadConfig engineHalf emptyCfg).state.MinInterval) ∧
    (emptyCfg.prioritizedEntities = none →
      (LoadConfig engineHalf emptyCfg).state.PrioritizedEntities
        = engineHalf.PrioritizedEntities) ∧
    (emptyCfg.shellActionInterval = none →
      (LoadConfig engineHalf emptyCfg).state.ShellActionInterval
        = engineHalf.ShellActionInterval) ∧
    (emptyCfg.shellActionCommand = none →
      (LoadConfig engineHalf emptyCfg).state.ShellActionCommand
        = engineHalf.ShellActionCommand) ∧
    (emptyCfg.faultActionProbability = none →
      (LoadConfig engineHalf emptyCfg).state.FaultActionProbability
        = engineHalf.FaultActionProbability) ∧
    (emptyCfg.procResetSchedProbability = none →
      (LoadConfig engineHalf emptyCfg).state.ProcResetSchedProbability
        = engineHalf.ProcResetSchedProbability) :=
  loadConfig_frame engineHalf emptyCfg

/-- C8: `LoadConfig` is idempotent on the engine state — applying the same
configuration a second time leaves every configuration field and the
shell-loop-running flag unchanged from the state after the first
application. -/
theorem loadConfig_idempotent (r : Random) (cfg : Config) :
    (LoadConfig (LoadConfig r cfg).state cfg).state = (LoadConfig r cfg).state := by
  ext1
  · rw [loadConfig_state_running ((LoadConfig r cfg).state) cfg,
      loadConfig_state_shell r cfg, getD_absorb,
      loadConfig_state_running r cfg, Bool.or_assoc, Bool.or_self]
  · rw [loadConfig_state_min ((LoadConfig r cfg).state) cfg,
      loadConfig_state_min r cfg, getD_absorb]
  · rw [loadConfig_state_max ((LoadConfig r cfg).state) cfg,
      loadConfig_state_min r cfg, getD_absorb,
      loadConfig_state_max r cfg]
  · rw [loadConfig_state_pe ((LoadConfig r cfg).state) cfg,
      loadConfig_state_pe r cfg, Finset.union_assoc, Finset.union_self]
  · rw [loadConfig_state_shell ((LoadConfig r cfg).state) cfg,
      loadConfig_state_shell r cfg, getD_absorb]
  · rw [loadConfig_state_cmd ((LoadConfig r cfg).state) cfg,
      loadConfig_state_cmd r cfg, getD_absorb]
  · rw [loadConfig_state_fault ((LoadConfig r cfg).state) cfg,
      loadConfig_state_shell r cfg, getD_absorb,
      loadConfig_state_fault r cfg]
    split_ifs with h1
    · rfl
    · rw [getD_absorb]
  · rw [loadConfig_state_proc ((LoadConfig r cfg).state) cfg,
      loadConfig_state_shell r cfg, getD_absorb,
      loadConfig_state_fault r cfg, loadConfig_state_proc r cfg]
    by_cases h1 : cfg.shellActionInterval.getD r.ShellActionInterval < 0
    · rw [if_pos h1, if_pos (Or.inl h1)]
    · rw [if_neg h1, getD_absorb]
      by_cases h2 : cfg.faultActionProbability.getD r.FaultActionProbability < 0
          ∨ 1 < cfg.faultActionProbability.getD r.FaultActionProbability
      · rw [if_pos (Or.inr h2)]
      · have h12 : ¬(cfg.shellActionInterval.getD r.ShellActionInterval < 0
            ∨ (cfg.faultActionProbability.getD r.FaultActionProbability < 0
                ∨ 1 < cfg.faultActionProbability.getD r.FaultActionProbability)) := by
          tauto
        rw [if_neg h12, if_neg h12, getD_absorb]

/-- Closed instance of C8 on a concrete state and configuration. -/
theorem loadConfig_idempotent_witness :
    (LoadConfig (LoadConfig New fullCfg).state fullCfg).state
      = (LoadConfig New fullCfg).state :=
  loadConfig_idempotent New fullCfg

/-- C9: `LoadConfig` is not atomic on error: on `badProbCfg` (minInterval 7
together with the out-of-range probability 2) it returns a validation error
after `MinInterval` has already been updated from 0 to 7 and the bad
probability itself has been stored; the prior state is not restored. -/
theorem loadConfig_not_atomic :
    (LoadConfig New badProbCfg).err = some ⟨"bad faultActionProbability"⟩ ∧
    (LoadConfig New badProbCfg).state.MinInterval = 7 ∧
    New.MinInterval = 0 ∧
    (LoadConfig New badProbCfg).state.FaultActionProbability = 2 ∧
    (LoadConfig New badProbCfg).state ≠ New := by
  rw [LoadConfig_eq_NF]
  refine ⟨?_, ?_, rfl, ?_, ?_⟩ <;> norm_num [LoadConfigNF, badProbCfg, New]

/-- C10: `LoadConfig` only ever adds entries to `prioritizedEntities`: the
prior set is contained in the new one, and when the key is present the
supplied entity ids are merged in (never replacing the set).  `LoadConfig`
is the only state-modifying operation of the engine — `makeActionForEvent`,
`QueueEvent` and the two routines never write the state — so no operation
removes a previously-added entity id. -/
theorem prioritizedEntities_grow_only (r : Random) (cfg : Config) :
    r.PrioritizedEntities ⊆ (LoadConfig r cfg).state.PrioritizedEntities ∧
    (∀ l, cfg.prioritizedEntities = some l →
      ∀ x ∈ l, x ∈ (LoadConfig r cfg).state.PrioritizedEntities) := by
  rw [loadConfig_state_pe]
  refine ⟨Finset.subset_union_left, ?_⟩
  intro l hl x hx
  rw [hl]
  exact Finset.mem_union_right _ (List.mem_toFinset.mpr hx)

/-- Closed instance of C10 on a concrete merge. -/
theorem prioritizedEntities_grow_only_witness :
    enginePrio1.PrioritizedEntities
        ⊆ (LoadConfig enginePrio1 fullCfg).state.PrioritizedEntities ∧
    (∀ l, fullCfg.prioritizedEntities = some l →
      ∀ x ∈ l, x ∈ (LoadConfig enginePrio1 fullCfg).state.PrioritizedEntities) :=
  prioritizedEntities_grow_only enginePrio1 fullCfg

/-- C5 (counterexample): for an event whose `DefaultAction()` fails while
its `DefaultFaultAction()` succeeds, with `faultActionProbability` 1 the
decision function returns the fault action with a nil error — the failure
to obtain the default action is not returned. -/
theorem default_action_error_swallowed :
    brokenDefaultEvent.defaultActionErr = some ⟨"no default action"⟩ ∧
    makeActionForEvent engineOne noProcSet 0 (.generic brokenDefaultEvent)
      = (some ⟨"packet-fault"⟩, none) := by
  refine ⟨rfl, ?_⟩
  have h1000 : engineOne.FaultActionProbability * 1000 = (1000 : ℚ) := by
    norm_num [engineOne, New]
  have ht : faultTriggered engineOne 0 = true := by
    rw [faultTriggered, h1000, goTrunc_eq_floor _ (by norm_num)]
    norm_num
  simp [makeActionForEvent, brokenDefaultEvent, ht]

/-- C5 (amended): the decision function returns the default-action error
whenever it takes the default branch — always when the event exposes no
fault action, and whenever the weighted trial does not fire — while the
fault branch returns the fault action's error instead; and every error the
decision function hands to the dequeue loop is fatal: the loop stops at it,
emits nothing further, and never retries the item. -/
theorem decision_error_fatal (r : Random)
    (procSetHandler : String → Option Action × Option GoError)
    (d : EventData) (draw : Nat) (e : GoError) :
    (d.defaultFaultAction = none →
      (makeActionForEvent r procSetHandler draw (.generic d)).2 = d.defaultActionErr) ∧
    (faultTriggered r draw = false →
      (makeActionForEvent r procSetHandler draw (.generic d)).2 = d.defaultActionErr) ∧
    (∀ fa, d.defaultFaultAction = some fa → faultTriggered r draw = true →
      (makeActionForEvent r procSetHandler draw (.generic d)).2 = d.defaultFaultActionErr) ∧
    (∀ ev rest, (makeActionForEvent r procSetHandler draw ev).2 = some e →
      dequeueEventRoutine r procSetHandler ((draw, ev) :: rest) = ([], some e)) := by
  refine ⟨?_, ?_, ?_, ?_⟩
  · intro h
    simp [makeActionForEvent, h]
  · intro h
    cases hfa : d.defaultFaultAction <;> simp [makeActionForEvent, hfa, h]
  · intro fa hfa ht
    simp [makeActionForEvent, hfa, ht]
  · intro ev rest hme
    rcases hm : makeActionForEvent r procSetHandler draw ev with ⟨a, err⟩
    rw [hm] at hme
    simp only at hme
    subst hme
    simp [dequeueEventRoutine, hm]

/-- Closed instance of the amended C5 on the fresh engine (probability 0,
so the trial never fires) and `brokenDefaultEvent`. -/
theorem decision_error_fatal_witness :
    (brokenDefaultEvent.defaultFaultAction = none →
      (makeActionForEvent New noProcSet 0 (.generic brokenDefaultEvent)).2
        = brokenDefaultEvent.defaultActionErr) ∧
    (faultTriggered New 0 = false →
      (makeActionForEvent New noProcSet 0 (.generic brokenDefaultEvent)).2
        = brokenDefaultEvent.defaultActionErr) ∧
    (∀ fa, brokenDefaultEvent.defaultFaultAction = some fa → faultTriggered New 0 = true →
      (makeActionForEvent New noProcSet 0 (.generic brokenDefaultEvent)).2
        = brokenDefaultEvent.defaultFaultActionErr) ∧
    (∀ ev rest, (makeActionForEvent New noProcSet 0 ev).2 = some ⟨"no default action"⟩ →
      dequeueEventRoutine New noProcSet ((0, ev) :: rest) = ([], some ⟨"no default action"⟩)) :=
  decision_error_fatal New noProcSet brokenDefaultEvent 0 ⟨"no default action"⟩

end RandomPolicy
